import Mathlib

/-!
Shallow embedding of `aiozk/connection.py` (single-connection ZooKeeper
protocol engine): the pending-registry data model, the send path, the
read-response decoder, the read-loop dispatch step, abort/drain, the
bounded reader `_read`, and the `srvr` handshake parser.

Bytes are modelled as `Nat` (one entry per byte), byte strings as
`List Nat`, text as `List Char`.  asyncio futures are modelled as
heap-allocated cells (`Nat` ids) whose states live in an association
list inside the connection; every `set_result` / `set_exception` call is
additionally recorded in an `events` log so that "resolved exactly once"
is observable.
-/

set_option autoImplicit false

namespace Aiozk

/-- Exception kinds raised or delivered by the connection code.
`connectError`/`timeoutError`/`unfinishedRead` model `exc.ConnectError`,
`exc.TimeoutError`, `exc.UnfinishedRead`; `connectionError` models the
builtin `ConnectionError` raised by `_make_handshake`; `connectionAborted`
models `ConnectionAbortedError`; `keyError`/`indexError` model the
builtin lookup failures of `dict.pop` / `list.pop`; `responseError c`
models `exc.get_response_error(c)` (the Protocol Catalog's
error-code → error-kind mapping, an external collaborator). -/
inductive ZkError where
  | connectError (host : String) (port : Int)
  | timeoutError (host : String) (port : Int)
  | unfinishedRead
  | connectionError
  | connectionAborted
  | keyError (key : Option Int)
  | indexError
  | responseError (code : Int)
  deriving DecidableEq, Repr

/-- Decoded response payloads.  The per-opcode deserializers of the
Protocol Catalog are external collaborators; their application is kept
abstract as a constructor tagging which decoder ran on which bytes. -/
inductive Response where
  | connectResponse (payload : List Nat)
  | watchEvent (payload : List Nat)
  | decoded (opcode : Nat) (payload : List Nat)
  deriving DecidableEq, Repr

/-- The third component of a `read_response` result: either a decoded
response object or an exception object (Python passes exceptions by
value here and `read_loop` checks `isinstance(response, Exception)`). -/
inductive Reply where
  | ok (r : Response)
  | err (e : ZkError)
  deriving DecidableEq, Repr

/-- State of an asyncio future: pending, resolved with
`set_result((zxid, response))`, failed with `set_exception`, or
cancelled by its caller. -/
inductive FutureState where
  | pending
  | result (zxid : Option Int) (r : Response)
  | failed (e : ZkError)
  | cancelled
  deriving DecidableEq, Repr

/-- `Future.done()`: true for resolved, failed and cancelled futures. -/
def FutureState.isDone : FutureState → Bool
  | .pending => false
  | _ => true

/-- Python-dict association-list lookup. -/
def assocLookup {α β : Type} [DecidableEq α] : List (α × β) → α → Option β
  | [], _ => none
  | (k, v) :: rest, a => if k = a then some v else assocLookup rest a

/-- Python-dict assignment `d[k] = v`: overwrite in place, else append. -/
def assocUpdate {α β : Type} [DecidableEq α] : List (α × β) → α → β → List (α × β)
  | [], a, b => [(a, b)]
  | (k, v) :: rest, a, b =>
      if k = a then (a, b) :: rest else (k, v) :: assocUpdate rest a b

/-- Python-dict `d.pop(k)`'s removal effect. -/
def assocRemove {α β : Type} [DecidableEq α] : List (α × β) → α → List (α × β)
  | [], _ => []
  | (k, v) :: rest, a => if k = a then rest else (k, v) :: assocRemove rest a

/-- Modelled from the spec: the Protocol Catalog's reserved correlation
ids (`protocol.WATCH_XID` etc.; the `protocol` module is outside the
given sources).  The spec fixes a small set containing at least the
watch-push id and the session-close id, disjoint from ordinary
caller-issued ids; the concrete values are immaterial to the claims. -/
def WATCH_XID : Int := -1

/-- Modelled from the spec: reserved ping id. -/
def PING_XID : Int := -2

/-- Modelled from the spec: reserved auth id. -/
def AUTH_XID : Int := -4

/-- Modelled from the spec: reserved session-close id. -/
def CLOSE_XID : Int := -11

/-- Modelled from the spec: `protocol.SPECIAL_XIDS`. -/
def SPECIAL_XIDS : List Int := [WATCH_XID, PING_XID, AUTH_XID, CLOSE_XID]

/-- A request as `Connection.send` consumes it: its opcode, its
`special_xid` attribute (`none` for ordinary requests) and its
serialized body (kept abstract). -/
structure Request where
  opcode : Nat
  special : Option Int
  body : List Nat
  deriving DecidableEq, Repr

/-- The `Connection` state touched by the claims: the flags and
registries of `Connection.__init__`, plus a future heap (`futures`,
`nextFid`), a log of resolution `events`, a log of frames `written` to
the transport, and a log of `watch_handler` invocations (`watchLog`). -/
structure Conn where
  host : String
  port : Int
  closing : Bool
  opcode_xref : List (Option Int × Nat)
  pending : List (Option Int × Nat)
  pending_specials : List (Int × List Nat)
  version_info : Option (Nat × Nat × Nat)
  start_read_only : Option Bool
  futures : List (Nat × FutureState)
  nextFid : Nat
  events : List (Nat × FutureState)
  written : List (Option Int × Nat)
  watchLog : List Reply
  deriving DecidableEq, Repr

/-- State of the future with id `f` (futures are always allocated before
use; absent ids read as pending). -/
def futureState (c : Conn) (f : Nat) : FutureState :=
  (assocLookup c.futures f).getD .pending

/-- `f.set_exception(e)`: record the new state and log the resolution. -/
def failFuture (c : Conn) (f : Nat) (e : ZkError) : Conn :=
  { c with futures := assocUpdate c.futures f (.failed e),
           events := c.events ++ [(f, FutureState.failed e)] }

/-- `f.set_result((zxid, response))`: record the new state and log the
resolution. -/
def completeFuture (c : Conn) (f : Nat) (zxid : Option Int) (r : Response) : Conn :=
  { c with futures := assocUpdate c.futures f (.result zxid r),
           events := c.events ++ [(f, FutureState.result zxid r)] }

/-- `defaultdict(list)` read of `pending_specials[x]`. -/
def specialsGet (c : Conn) (x : Int) : List Nat :=
  (assocLookup c.pending_specials x).getD []

/-- Write back `pending_specials[x]`. -/
def specialsSet (c : Conn) (x : Int) (q : List Nat) : Conn :=
  { c with pending_specials := assocUpdate c.pending_specials x q }

/-- `xid in protocol.SPECIAL_XIDS` for the (possibly `None`) xid value. -/
def isSpecial (x : Option Int) : Bool :=
  match x with
  | some v => decide (v ∈ SPECIAL_XIDS)
  | none => false

/-- `Connection.send` (connection.py lines 109-137).  Returns the id of
the freshly created future together with the updated connection.  The
transport write is modelled as appending `(xid, opcode)` to `written`
and never fails here (the write-failure → `abort` branch is not
exercised by any claim). -/
def send (c : Conn) (req : Request) (xid : Option Int) : Nat × Conn :=
  let f := c.nextFid
  let c0 : Conn :=
    { c with nextFid := f + 1, futures := assocUpdate c.futures f .pending }
  if c0.closing then
    (f, failFuture c0 f (.connectError c0.host c0.port))
  else
    let x : Option Int :=
      match req.special with
      | some s => some s
      | none => xid
    let c1 : Conn := { c0 with opcode_xref := assocUpdate c0.opcode_xref x req.opcode }
    let c2 : Conn :=
      if isSpecial x then
        match x with
        | some v => specialsSet c1 v ((specialsGet c1 v).concat f)
        | none => c1
      else
        { c1 with pending := assocUpdate c1.pending x f }
    (f, { c2 with written := c2.written ++ [(x, req.opcode)] })

/-- `Connection.pending_count`. -/
def pendingCount (c : Conn) : Nat :=
  (c.pending_specials.map (fun p => p.2.length)).sum + c.pending.length

/-- Big-endian value of a byte list. -/
def beNat (bs : List Nat) : Nat :=
  bs.foldl (fun a b => a * 256 + b % 256) 0

/-- `struct.unpack` of a fixed-width big-endian signed integer
(`!i` on 4 bytes, `!q` on 8 bytes). -/
def decodeIntBE (bs : List Nat) : Int :=
  let v := beNat bs
  if v < 2 ^ (8 * bs.length - 1) then (v : Int) else (v : Int) - 2 ^ (8 * bs.length)

/-- `reply_header_struct.unpack_from`: (xid : int32, zxid : int64,
error_code : int32) from a 16-byte header. -/
def decodeHeader (bs : List Nat) : Int × Int × Int :=
  (decodeIntBE (bs.take 4), decodeIntBE ((bs.drop 4).take 8), decodeIntBE (bs.drop 12))

/-- The contract of `Connection._read n` against an already-buffered
stream: deliver exactly `n` bytes, or fail with `UnfinishedRead` when
they are not available before the deadline (never a short read — the
byte-level accumulation loop itself is `readBounded` below, whose
exact-or-`UnfinishedRead` behaviour this matches). -/
def streamRead (n : Int) (s : List Nat) : Except ZkError (List Nat × List Nat) :=
  if 0 ≤ n ∧ n ≤ (s.length : Int) then .ok (s.take n.toNat, s.drop n.toNat)
  else .error .unfinishedRead

/-- `Connection.read_response` (connection.py lines 196-226), reading
from the buffered byte stream `s`.  Returns the `(xid, zxid, response)`
triple, the updated connection (only `opcode_xref` can change) and the
unread remainder of the stream; raised exceptions are `Except.error`. -/
def read_response (c : Conn) (s : List Nat) (initial_connect : Bool) :
    Except ZkError ((Option Int × Option Int × Reply) × Conn × List Nat) :=
  if s.length < 4 then .error .connectionAborted
  else
    let size := decodeIntBE (s.take 4)
    let s1 := s.drop 4
    if initial_connect ∨ specialsGet c CLOSE_XID ≠ [] then
      match streamRead size s1 with
      | .error e => .error e
      | .ok (raw_payload, rest) =>
          .ok ((none, none, .ok (.connectResponse raw_payload)), c, rest)
    else
      match streamRead 16 s1 with
      | .error e => .error e
      | .ok (raw_header, s2) =>
          let h := decodeHeader raw_header
          let xid := h.1
          let zxid := h.2.1
          let error_code := h.2.2
          if error_code ≠ 0 then
            match assocLookup c.opcode_xref (some xid) with
            | none => .error (.keyError (some xid))
            | some _ =>
                .ok ((some xid, some zxid, .err (.responseError error_code)),
                     { c with opcode_xref := assocRemove c.opcode_xref (some xid) }, s2)
          else
            match streamRead (size - 16) s2 with
            | .error e => .error e
            | .ok (raw_payload, s3) =>
                if xid = WATCH_XID then
                  .ok ((some xid, some zxid, .ok (.watchEvent raw_payload)), c, s3)
                else
                  match assocLookup c.opcode_xref (some xid) with
                  | none => .error (.keyError (some xid))
                  | some opcode =>
                      .ok ((some xid, some zxid, .ok (.decoded opcode raw_payload)),
                           { c with opcode_xref := assocRemove c.opcode_xref (some xid) }, s3)

/-- Resolve a popped future the way `read_loop` does:
`if not f.done(): set_exception / set_result((zxid, response))`. -/
def resolve (c : Conn) (f : Nat) (zxid : Option Int) (rep : Reply) : Conn :=
  if (futureState c f).isDone then c
  else
    match rep with
    | .err e => failFuture c f e
    | .ok r => completeFuture c f zxid r

/-- The dispatch step of one `read_loop` iteration (connection.py lines
165-177): watch frames go to the watch handler; reserved-id frames pop
the newest entry of that id's `pending_specials` list (`list.pop()`);
ordinary frames pop `pending[xid]` (`dict.pop`, raising `KeyError` when
absent).  A raised lookup error is `Except.error` — in the source it is
not caught by the loop. -/
def dispatch (c : Conn) (xid : Option Int) (zxid : Option Int) (rep : Reply) :
    Except ZkError Conn :=
  match xid with
  | some x =>
      if x = WATCH_XID then
        .ok { c with watchLog := c.watchLog ++ [rep] }
      else if x ∈ SPECIAL_XIDS then
        match (specialsGet c x).getLast? with
        | none => .error .indexError
        | some f => .ok (resolve (specialsSet c x (specialsGet c x).dropLast) f zxid rep)
      else
        match assocLookup c.pending (some x) with
        | none => .error (.keyError (some x))
        | some f =>
            .ok (resolve { c with pending := assocRemove c.pending (some x) } f zxid rep)
  | none =>
      match assocLookup c.pending none with
      | none => .error (.keyError none)
      | some f =>
          .ok (resolve { c with pending := assocRemove c.pending none } f zxid rep)

/-- Futures drained by `Connection.drain_all_pending`: every reserved
queue in `SPECIAL_XIDS` order, then the ordinary map ( `iterables.drain`
— not among the given sources — is modelled from the spec: it
destructively removes and yields every element; removal by repeated
`pop` yields each collection newest-first). -/
def drainedFids (c : Conn) : List Nat :=
  SPECIAL_XIDS.flatMap (fun x => (specialsGet c x).reverse) ++
    (c.pending.map (fun p => p.2)).reverse

/-- The registry-emptying effect of `drain_all_pending`. -/
def clearRegistries (c : Conn) : Conn :=
  { c with pending := [], pending_specials := [] }

/-- `Connection.abort` (connection.py lines 228-251): drain both
registries, then fail every drained future that is not already done
with `mkExc(host, port)` (default `exc.ConnectError`; the
`sys.exc_info()` branch is dead code — `if False and ...`). -/
def abort (c : Conn) (mkExc : String → Int → ZkError) : Conn :=
  (drainedFids c).foldl
    (fun acc f =>
      if (futureState acc f).isDone then acc
      else failFuture acc f (mkExc acc.host acc.port))
    (clearRegistries c)

/-- Outcome of one iteration of `read_loop`'s `while` body. -/
inductive LoopStep where
  | cont (c : Conn) (rest : List Nat)
  | ret (c : Conn)
  | abortedStep (c : Conn)
  | crashed (e : ZkError) (c : Conn)
  deriving DecidableEq, Repr

/-- One iteration of `Connection.read_loop` (connection.py lines
153-177): `read_response` errors are caught — `ConnectionAbortedError`
(and `CancelledError`) return cleanly, anything else aborts the
connection and returns; a successful read is dispatched, and an
exception raised by the dispatch lookup propagates uncaught
(`crashed`). -/
def readLoopIter (c : Conn) (s : List Nat) : LoopStep :=
  match read_response c s false with
  | .error .connectionAborted => .ret c
  | .error _ => .abortedStep (abort c ZkError.connectError)
  | .ok ((xid, zxid, rep), c1, rest) =>
      match dispatch c1 xid zxid rep with
      | .error e => .crashed e c1
      | .ok c2 => .cont c2 rest

/-- The guard of `read_loop`'s `while`. -/
def readLoopGuard (c : Conn) : Bool :=
  !c.closing || decide (0 < pendingCount c)

/-- The accumulation loop of `Connection._read` (connection.py lines
179-194).  `attempts` are the successive outcomes of
`wait_for(reader.read(remaining), remaining_time)` inside the deadline
window: `none` is a `TimeoutError` attempt (`continue`), `some chunk`
a delivered chunk; the list running out is the deadline elapsing.
`remaining` is an `Int` because the Python loop tests the truthiness of
`remaining_size` (any non-zero value, negative included, continues the
loop and then raises `UnfinishedRead`). -/
def readBounded : List (Option (List Nat)) → Int → List Nat → Except ZkError (List Nat)
  | [], remaining, acc =>
      if remaining = 0 then .ok acc else .error .unfinishedRead
  | none :: rest, remaining, acc =>
      if remaining = 0 then .ok acc else readBounded rest remaining acc
  | some chunk :: rest, remaining, acc =>
      if remaining = 0 then .ok acc
      else readBounded rest (remaining - chunk.length) (acc ++ chunk)

/-- `Connection._read size` on a given attempt trace. -/
def zkRead (attempts : List (Option (List Nat))) (size : Int) : Except ZkError (List Nat) :=
  readBounded attempts size []

/-- Characters of the first line: `answer.split(b"\n")[0]`. -/
def firstLine (answer : List Char) : List Char :=
  answer.takeWhile (fun ch => ch ≠ '\n')

/-- Numeric value of a digit run, as Python `int` of the group. -/
def digitsToNat (ds : List Char) : Nat :=
  ds.foldl (fun n ch => n * 10 + (ch.toNat - '0'.toNat)) 0

/-- Strip an expected literal prefix, returning the remainder. -/
def stripLit : List Char → List Char → Option (List Char)
  | [], rest => some rest
  | _ :: _, [] => none
  | p :: ps, ch :: rest => if ch = p then stripLit ps rest else none

/-- `version_regex.match(version_line)` for
`rb'Zookeeper version: (\d+)\.(\d+)\.(\d+)-.*'` (`re.match` anchors at
the start only; `.*` matches the rest of a newline-free line), returning
the three integer groups. -/
def parseVersionLine (l : List Char) : Option (Nat × Nat × Nat) :=
  match stripLit "Zookeeper version: ".toList l with
  | none => none
  | some r1 =>
      let d1 := r1.takeWhile Char.isDigit
      let r2 := r1.dropWhile Char.isDigit
      if d1 = [] then none
      else
        match r2 with
        | '.' :: r3 =>
            let d2 := r3.takeWhile Char.isDigit
            let r4 := r3.dropWhile Char.isDigit
            if d2 = [] then none
            else
              match r4 with
              | '.' :: r5 =>
                  let d3 := r5.takeWhile Char.isDigit
                  let r6 := r5.dropWhile Char.isDigit
                  if d3 = [] then none
                  else
                    match r6 with
                    | '-' :: _ => some (digitsToNat d1, digitsToNat d2, digitsToNat d3)
                    | _ => none
              | _ => none
        | _ => none

/-- `b"READ_ONLY" in answer`. -/
def readOnlyFlag (answer : List Char) : Bool :=
  decide ("READ_ONLY".toList <:+: answer)

/-- The parsing part of `Connection._make_handshake` (connection.py
lines 54-72), applied to the probe `answer`: a first line that fails the
version pattern raises the builtin `ConnectionError` (the failure the
spec's taxonomy calls ProtocolError); otherwise `version_info` and
`start_read_only` are stored. -/
def make_handshake (c : Conn) (answer : List Char) : Except ZkError Conn :=
  match parseVersionLine (firstLine answer) with
  | none => .error .connectionError
  | some v => .ok { c with version_info := some v, start_read_only := some (readOnlyFlag answer) }

/-! ### Association-list lemmas -/

theorem assocLookup_update_self {α β : Type} [DecidableEq α]
    (l : List (α × β)) (k : α) (v : β) :
    assocLookup (assocUpdate l k v) k = some v := by
  induction l with
  | nil => simp [assocUpdate, assocLookup]
  | cons p rest ih =>
      obtain ⟨k', v'⟩ := p
      by_cases h : k' = k
      · subst h
        simp [assocUpdate, assocLookup]
      · simp [assocUpdate, assocLookup, h, ih]

theorem assocLookup_update_ne {α β : Type} [DecidableEq α]
    (l : List (α × β)) (k k' : α) (v : β) (h : k' ≠ k) :
    assocLookup (assocUpdate l k v) k' = assocLookup l k' := by
  induction l with
  | nil => simp [assocUpdate, assocLookup, Ne.symm h]
  | cons p rest ih =>
      obtain ⟨k₀, v₀⟩ := p
      by_cases hk : k₀ = k
      · subst hk
        simp [assocUpdate, assocLookup, Ne.symm h]
      · simp only [assocUpdate, if_neg hk, assocLookup]
        by_cases hk' : k₀ = k'
        · simp [hk']
        · simp [hk', ih]

theorem assocUpdate_update_same {α β : Type} [DecidableEq α]
    (l : List (α × β)) (k : α) (v w : β) :
    assocUpdate (assocUpdate l k v) k w = assocUpdate l k w := by
  induction l with
  | nil => simp [assocUpdate]
  | cons p rest ih =>
      obtain ⟨k₀, v₀⟩ := p
      by_cases hk : k₀ = k
      · subst hk
        simp [assocUpdate]
      · simp [assocUpdate, hk, ih]

theorem mem_keys_update {α β : Type} [DecidableEq α]
    (l : List (α × β)) (k a : α) (v : β)
    (h : a ∈ (assocUpdate l k v).map Prod.fst) :
    a ∈ l.map Prod.fst ∨ a = k := by
  induction l with
  | nil =>
      simp [assocUpdate] at h
      exact Or.inr h
  | cons p rest ih =>
      obtain ⟨k₀, v₀⟩ := p
      by_cases hk : k₀ = k
      · subst hk
        simp [assocUpdate] at h
        rcases h with h | h
        · exact Or.inr h
        · exact Or.inl (by simp [h])
      · simp only [assocUpdate, if_neg hk, List.map_cons, List.mem_cons] at h
        rcases h with h | h
        · exact Or.inl (by simp [h])
        · rcases ih h with h' | h'
          · exact Or.inl (by simp [h'])
          · exact Or.inr h'

theorem nodup_keys_update {α β : Type} [DecidableEq α]
    (l : List (α × β)) (k : α) (v : β)
    (h : (l.map Prod.fst).Nodup) :
    ((assocUpdate l k v).map Prod.fst).Nodup := by
  induction l with
  | nil => simp [assocUpdate]
  | cons p rest ih =>
      obtain ⟨k₀, v₀⟩ := p
      simp only [List.map_cons, List.nodup_cons] at h
      by_cases hk : k₀ = k
      · subst hk
        simpa [assocUpdate] using h
      · simp only [assocUpdate, if_neg hk, List.map_cons, List.nodup_cons]
        refine ⟨fun hmem => ?_, ih h.2⟩
        rcases mem_keys_update rest k k₀ v hmem with h' | h'
        · exact h.1 h'
        · exact hk h'

theorem assocLookup_eq_none_of_not_mem_keys {α β : Type} [DecidableEq α]
    (l : List (α × β)) (k : α) (h : k ∉ l.map Prod.fst) :
    assocLookup l k = none := by
  induction l with
  | nil => rfl
  | cons p rest ih =>
      obtain ⟨k₀, v₀⟩ := p
      simp only [List.map_cons, List.mem_cons] at h
      push_neg at h
      simp [assocLookup, Ne.symm h.1, ih h.2]

theorem countP_keys_eq_zero_of_not_mem {α β : Type} [DecidableEq α]
    (l : List (α × β)) (k : α) (h : k ∉ l.map Prod.fst) :
    l.countP (fun p => p.1 = k) = 0 := by
  induction l with
  | nil => rfl
  | cons p rest ih =>
      obtain ⟨k₀, v₀⟩ := p
      simp only [List.map_cons, List.mem_cons] at h
      push_neg at h
      simp [List.countP_cons, ih h.2, Ne.symm h.1]

theorem countP_keys_update_self {α β : Type} [DecidableEq α]
    (l : List (α × β)) (k : α) (v : β)
    (h : (l.map Prod.fst).Nodup) :
    (assocUpdate l k v).countP (fun p => p.1 = k) = 1 := by
  induction l with
  | nil => simp [assocUpdate, List.countP_cons]
  | cons p rest ih =>
      obtain ⟨k₀, v₀⟩ := p
      simp only [List.map_cons, List.nodup_cons] at h
      by_cases hk : k₀ = k
      · subst hk
        simp [assocUpdate, List.countP_cons,
          countP_keys_eq_zero_of_not_mem rest k₀ h.1]
      · simp [assocUpdate, hk, List.countP_cons, ih h.2]

theorem assocLookup_remove_self {α β : Type} [DecidableEq α]
    (l : List (α × β)) (k : α) (h : (l.map Prod.fst).Nodup) :
    assocLookup (assocRemove l k) k = none := by
  induction l with
  | nil => rfl
  | cons p rest ih =>
      obtain ⟨k₀, v₀⟩ := p
      simp only [List.map_cons, List.nodup_cons] at h
      by_cases hk : k₀ = k
      · subst hk
        exact by simpa [assocRemove] using
          assocLookup_eq_none_of_not_mem_keys rest k₀ h.1
      · simp [assocRemove, assocLookup, hk, ih h.2]

theorem assocLookup_remove_ne {α β : Type} [DecidableEq α]
    (l : List (α × β)) (k k' : α) (h : k' ≠ k) :
    assocLookup (assocRemove l k) k' = assocLookup l k' := by
  induction l with
  | nil => rfl
  | cons p rest ih =>
      obtain ⟨k₀, v₀⟩ := p
      by_cases hk : k₀ = k
      · subst hk
        simp [assocRemove, assocLookup, Ne.symm h]
      · simp only [assocRemove, if_neg hk, assocLookup]
        by_cases hk' : k₀ = k'
        · simp [hk']
        · simp [hk', ih]

/-! ### Stream-read lemmas -/

theorem streamRead_exact (a r : List Nat) :
    streamRead (a.length : Int) (a ++ r) = .ok (a, r) := by
  have hle : (a.length : Int) ≤ ((a ++ r).length : Int) := by
    simp [List.length_append]
  simp [streamRead, hle, Int.toNat_ofNat, List.take_left, List.drop_left]

/-! ### Bounded-reader lemmas -/

theorem readBounded_ok_length (attempts : List (Option (List Nat))) :
    ∀ (r : Int) (acc bs : List Nat),
      readBounded attempts r acc = .ok bs → (bs.length : Int) = acc.length + r := by
  induction attempts with
  | nil =>
      intro r acc bs h
      by_cases hr : r = 0
      · simp [readBounded, hr] at h
        simp [← h, hr]
      · simp [readBounded, hr] at h
  | cons a rest ih =>
      intro r acc bs h
      by_cases hr : r = 0
      · match a with
        | none => simp [readBounded, hr] at h; simp [← h, hr]
        | some chunk => simp [readBounded, hr] at h; simp [← h, hr]
      · match a with
        | none =>
            simp only [readBounded, if_neg hr] at h
            simpa using ih r acc bs h
        | some chunk =>
            simp only [readBounded, if_neg hr] at h
            have := ih (r - chunk.length) (acc ++ chunk) bs h
            rw [this]
            simp [List.length_append]

theorem readBounded_error_is_unfinished (attempts : List (Option (List Nat))) :
    ∀ (r : Int) (acc : List Nat) (e : ZkError),
      readBounded attempts r acc = .error e → e = .unfinishedRead := by
  induction attempts with
  | nil =>
      intro r acc e h
      by_cases hr : r = 0
      · simp [readBounded, hr] at h
      · simp [readBounded, hr] at h
        exact h.symm
  | cons a rest ih =>
      intro r acc e h
      by_cases hr : r = 0
      · match a with
        | none => simp [readBounded, hr] at h
        | some chunk => simp [readBounded, hr] at h
      · match a with
        | none =>
            simp only [readBounded, if_neg hr] at h
            exact ih r acc e h
        | some chunk =>
            simp only [readBounded, if_neg hr] at h
            exact ih (r - chunk.length) (acc ++ chunk) e h

/-! ### Frame-level lemmas about `read_response` -/

theorem read_response_frame_decoded
    (c : Conn) (b1 b2 body rest : List Nat) (x z : Int) (op : Nat)
    (hb1 : b1.length = 4) (hb2 : b2.length = 16)
    (hsize : decodeIntBE b1 = 16 + body.length)
    (hhdr : decodeHeader b2 = (x, z, 0))
    (hclose : specialsGet c CLOSE_XID = [])
    (hxw : x ≠ WATCH_XID)
    (hop : assocLookup c.opcode_xref (some x) = some op) :
    read_response c (b1 ++ (b2 ++ (body ++ rest))) false =
      .ok ((some x, some z, .ok (.decoded op body)),
           { c with opcode_xref := assocRemove c.opcode_xref (some x) }, rest) := by
  have hlen : ¬ (b1 ++ (b2 ++ (body ++ rest))).length < 4 := by
    simp [List.length_append, hb1]
  have htake : (b1 ++ (b2 ++ (body ++ rest))).take 4 = b1 := by
    rw [← hb1]; exact List.take_left _ _
  have hdrop : (b1 ++ (b2 ++ (body ++ rest))).drop 4 = b2 ++ (body ++ rest) := by
    rw [← hb1]; exact List.drop_left _ _
  have h16 : streamRead 16 (b2 ++ (body ++ rest)) = .ok (b2, body ++ rest) := by
    have h := streamRead_exact b2 (body ++ rest)
    rw [hb2] at h
    simpa using h
  have hbody : streamRead (decodeIntBE b1 - 16) (body ++ rest) = .ok (body, rest) := by
    have harith : decodeIntBE b1 - 16 = (body.length : Int) := by
      rw [hsize]; ring
    rw [harith]
    exact streamRead_exact body rest
  simp [read_response, hlen, htake, hdrop, hclose, h16, hhdr, hxw, hop, hbody]
  omega

theorem read_response_frame_watch
    (c : Conn) (b1 b2 body rest : List Nat) (z : Int)
    (hb1 : b1.length = 4) (hb2 : b2.length = 16)
    (hsize : decodeIntBE b1 = 16 + body.length)
    (hhdr : decodeHeader b2 = (WATCH_XID, z, 0))
    (hclose : specialsGet c CLOSE_XID = []) :
    read_response c (b1 ++ (b2 ++ (body ++ rest))) false =
      .ok ((some WATCH_XID, some z, .ok (.watchEvent body)), c, rest) := by
  have hlen : ¬ (b1 ++ (b2 ++ (body ++ rest))).length < 4 := by
    simp [List.length_append, hb1]
  have htake : (b1 ++ (b2 ++ (body ++ rest))).take 4 = b1 := by
    rw [← hb1]; exact List.take_left _ _
  have hdrop : (b1 ++ (b2 ++ (body ++ rest))).drop 4 = b2 ++ (body ++ rest) := by
    rw [← hb1]; exact List.drop_left _ _
  have h16 : streamRead 16 (b2 ++ (body ++ rest)) = .ok (b2, body ++ rest) := by
    have h := streamRead_exact b2 (body ++ rest)
    rw [hb2] at h
    simpa using h
  have hbody : streamRead (decodeIntBE b1 - 16) (body ++ rest) = .ok (body, rest) := by
    have harith : decodeIntBE b1 - 16 = (body.length : Int) := by
      rw [hsize]; ring
    rw [harith]
    exact streamRead_exact body rest
  simp [read_response, hlen, htake, hdrop, hclose, h16, hhdr, hbody]
  omega

theorem read_response_frame_error_code
    (c : Conn) (b1 b2 tail : List Nat) (x z ec : Int) (op : Nat)
    (hb1 : b1.length = 4) (hb2 : b2.length = 16)
    (hhdr : decodeHeader b2 = (x, z, ec))
    (hec : ec ≠ 0)
    (hclose : specialsGet c CLOSE_XID = [])
    (hop : assocLookup c.opcode_xref (some x) = some op) :
    read_response c (b1 ++ (b2 ++ tail)) false =
      .ok ((some x, some z, .err (.responseError ec)),
           { c with opcode_xref := assocRemove c.opcode_xref (some x) }, tail) := by
  have hlen : ¬ (b1 ++ (b2 ++ tail)).length < 4 := by
    simp [List.length_append, hb1]
  have htake : (b1 ++ (b2 ++ tail)).take 4 = b1 := by
    rw [← hb1]; exact List.take_left _ _
  have hdrop : (b1 ++ (b2 ++ tail)).drop 4 = b2 ++ tail := by
    rw [← hb1]; exact List.drop_left _ _
  have h16 : streamRead 16 (b2 ++ tail) = .ok (b2, tail) := by
    have h := streamRead_exact b2 tail
    rw [hb2] at h
    simpa using h
  simp [read_response, hlen, htake, hdrop, hclose, h16, hhdr, hec, hop]
  omega

theorem read_response_frame_no_opcode
    (c : Conn) (b1 b2 body rest : List Nat) (x z : Int)
    (hb1 : b1.length = 4) (hb2 : b2.length = 16)
    (hsize : decodeIntBE b1 = 16 + body.length)
    (hhdr : decodeHeader b2 = (x, z, 0))
    (hclose : specialsGet c CLOSE_XID = [])
    (hxw : x ≠ WATCH_XID)
    (hop : assocLookup c.opcode_xref (some x) = none) :
    read_response c (b1 ++ (b2 ++ (body ++ rest))) false =
      .error (.keyError (some x)) := by
  have hlen : ¬ (b1 ++ (b2 ++ (body ++ rest))).length < 4 := by
    simp [List.length_append, hb1]
  have htake : (b1 ++ (b2 ++ (body ++ rest))).take 4 = b1 := by
    rw [← hb1]; exact List.take_left _ _
  have hdrop : (b1 ++ (b2 ++ (body ++ rest))).drop 4 = b2 ++ (body ++ rest) := by
    rw [← hb1]; exact List.drop_left _ _
  have h16 : streamRead 16 (b2 ++ (body ++ rest)) = .ok (b2, body ++ rest) := by
    have h := streamRead_exact b2 (body ++ rest)
    rw [hb2] at h
    simpa using h
  have hbody : streamRead (decodeIntBE b1 - 16) (body ++ rest) = .ok (body, rest) := by
    have harith : decodeIntBE b1 - 16 = (body.length : Int) := by
      rw [hsize]; ring
    rw [harith]
    exact streamRead_exact body rest
  simp [read_response, hlen, htake, hdrop, hclose, h16, hhdr, hxw, hop, hbody]
  omega

/-! ### Handshake-parser lemmas -/

/-- The version pattern as the spec words it: the line is the literal
prefix, three nonempty digit groups separated by dots, then a dash and
arbitrary trailing text (`re.match` does not anchor the end). -/
def VersionPattern (l : List Char) : Prop :=
  ∃ d1 d2 d3 rest : List Char,
    d1 ≠ [] ∧ (∀ ch ∈ d1, ch.isDigit = true) ∧
    d2 ≠ [] ∧ (∀ ch ∈ d2, ch.isDigit = true) ∧
    d3 ≠ [] ∧ (∀ ch ∈ d3, ch.isDigit = true) ∧
    l = "Zookeeper version: ".toList ++
      (d1 ++ ('.' :: (d2 ++ ('.' :: (d3 ++ ('-' :: rest))))))

theorem stripLit_append (p r : List Char) : stripLit p (p ++ r) = some r := by
  induction p with
  | nil => rfl
  | cons a ps ih => simp [stripLit, ih]

theorem stripLit_some (p : List Char) :
    ∀ l r : List Char, stripLit p l = some r → l = p ++ r := by
  induction p with
  | nil =>
      intro l r h
      simp [stripLit] at h
      simp [h]
  | cons a ps ih =>
      intro l r h
      cases l with
      | nil => simp [stripLit] at h
      | cons b lt =>
          by_cases hb : b = a
          · subst hb
            simp only [stripLit, if_pos rfl] at h
            simp [ih lt r h]
          · simp [stripLit, hb] at h

theorem takeWhile_all_append (p : Char → Bool) (d : List Char) (b : Char)
    (t : List Char) (hd : ∀ ch ∈ d, p ch = true) (hb : p b = false) :
    (d ++ b :: t).takeWhile p = d := by
  induction d with
  | nil => simp [List.takeWhile, hb]
  | cons a ds ih =>
      have ha : p a = true := hd a (by simp)
      simp only [List.cons_append, List.takeWhile_cons, ha, if_true]
      rw [ih (fun ch hch => hd ch (by simp [hch]))]

theorem dropWhile_all_append (p : Char → Bool) (d : List Char) (b : Char)
    (t : List Char) (hd : ∀ ch ∈ d, p ch = true) (hb : p b = false) :
    (d ++ b :: t).dropWhile p = b :: t := by
  induction d with
  | nil => simp [List.dropWhile, hb]
  | cons a ds ih =>
      have ha : p a = true := hd a (by simp)
      simp only [List.cons_append, List.dropWhile_cons, ha, if_true]
      exact ih (fun ch hch => hd ch (by simp [hch]))

theorem parseVersionLine_of_decomp (d1 d2 d3 rest : List Char)
    (h1 : d1 ≠ []) (hd1 : ∀ ch ∈ d1, ch.isDigit = true)
    (h2 : d2 ≠ []) (hd2 : ∀ ch ∈ d2, ch.isDigit = true)
    (h3 : d3 ≠ []) (hd3 : ∀ ch ∈ d3, ch.isDigit = true) :
    parseVersionLine ("Zookeeper version: ".toList ++
        (d1 ++ ('.' :: (d2 ++ ('.' :: (d3 ++ ('-' :: rest))))))) =
      some (digitsToNat d1, digitsToNat d2, digitsToNat d3) := by
  have hdot : ('.' : Char).isDigit = false := by decide
  have hdash : ('-' : Char).isDigit = false := by decide
  simp only [parseVersionLine, stripLit_append]
  rw [takeWhile_all_append _ d1 '.' _ hd1 hdot,
      dropWhile_all_append _ d1 '.' _ hd1 hdot]
  simp only [if_neg h1]
  rw [takeWhile_all_append _ d2 '.' _ hd2 hdot,
      dropWhile_all_append _ d2 '.' _ hd2 hdot]
  simp only [if_neg h2]
  rw [takeWhile_all_append _ d3 '-' _ hd3 hdash,
      dropWhile_all_append _ d3 '-' _ hd3 hdash]
  simp only [if_neg h3]

theorem decomp_of_parseVersionLine (l : List Char) (v : Nat × Nat × Nat)
    (h : parseVersionLine l = some v) : VersionPattern l := by
  simp only [parseVersionLine] at h
  split at h
  · exact absurd h (by simp)
  next r1 hstrip =>
    split at h
    · exact absurd h (by simp)
    next h1 =>
      split at h
      next r3 hr2 =>
        split at h
        · exact absurd h (by simp)
        next h2 =>
          split at h
          next r5 hr4 =>
            split at h
            · exact absurd h (by simp)
            next h3 =>
              split at h
              next r7 hr6 =>
                have e1 : r1 = r1.takeWhile Char.isDigit ++ ('.' :: r3) := by
                  conv_lhs => rw [← List.takeWhile_append_dropWhile
                    (p := Char.isDigit) (l := r1)]
                  rw [hr2]
                have e3 : r3 = r3.takeWhile Char.isDigit ++ ('.' :: r5) := by
                  conv_lhs => rw [← List.takeWhile_append_dropWhile
                    (p := Char.isDigit) (l := r3)]
                  rw [hr4]
                have e5 : r5 = r5.takeWhile Char.isDigit ++ ('-' :: r7) := by
                  conv_lhs => rw [← List.takeWhile_append_dropWhile
                    (p := Char.isDigit) (l := r5)]
                  rw [hr6]
                refine ⟨r1.takeWhile Char.isDigit, r3.takeWhile Char.isDigit,
                  r5.takeWhile Char.isDigit, r7,
                  h1, fun ch hch => List.mem_takeWhile_imp hch,
                  h2, fun ch hch => List.mem_takeWhile_imp hch,
                  h3, fun ch hch => List.mem_takeWhile_imp hch, ?_⟩
                rw [stripLit_some _ l r1 hstrip]
                generalize hg1 : r1.takeWhile Char.isDigit = a1 at e1 ⊢
                generalize hg2 : r3.takeWhile Char.isDigit = a2 at e3 ⊢
                generalize hg3 : r5.takeWhile Char.isDigit = a3 at e5 ⊢
                rw [e1, e3, e5]
              next => exact absurd h (by simp)
          next => exact absurd h (by simp)
      next => exact absurd h (by simp)

/-! ### Registry-membership lemmas -/

/-- All future ids reachable from the Pending Registry: values of the
ordinary map plus every reserved queue's entries. -/
def registeredFids (c : Conn) : List Nat :=
  c.pending.map (fun p => p.2) ++ c.pending_specials.flatMap (fun p => p.2)

theorem assocLookup_mem {α β : Type} [DecidableEq α]
    (l : List (α × β)) (k : α) (v : β) (h : assocLookup l k = some v) :
    (k, v) ∈ l := by
  induction l with
  | nil => simp [assocLookup] at h
  | cons p rest ih =>
      obtain ⟨k₀, v₀⟩ := p
      by_cases hk : k₀ = k
      · subst hk
        simp [assocLookup] at h
        simp [h]
      · simp only [assocLookup, if_neg hk] at h
        exact List.mem_cons_of_mem _ (ih h)

theorem mem_of_getLast {α : Type} (l : List α) (a : α) (h : l.getLast? = some a) :
    a ∈ l := by
  induction l with
  | nil => simp at h
  | cons b rest ih =>
      cases rest with
      | nil =>
          simp [List.getLast?] at h
          simp [h]
      | cons b' rest' =>
          rw [List.getLast?_cons_cons] at h
          exact List.mem_cons_of_mem _ (ih h)

theorem mem_values_update {α β : Type} [DecidableEq α]
    (l : List (α × β)) (k : α) (v w : β)
    (h : w ∈ (assocUpdate l k v).map Prod.snd) :
    w ∈ l.map Prod.snd ∨ w = v := by
  induction l with
  | nil =>
      simp [assocUpdate] at h
      exact Or.inr h
  | cons p rest ih =>
      obtain ⟨k₀, v₀⟩ := p
      by_cases hk : k₀ = k
      · subst hk
        simp [assocUpdate] at h
        rcases h with h | h
        · exact Or.inr h
        · exact Or.inl (by simp; exact Or.inr h)
      · simp only [assocUpdate, if_neg hk, List.map_cons, List.mem_cons] at h
        rcases h with h | h
        · exact Or.inl (by simp [h])
        · rcases ih h with h' | h'
          · exact Or.inl (by right; exact h')
          · exact Or.inr h'

theorem specialsGet_mem_registered (c : Conn) (x : Int) (f : Nat)
    (h : f ∈ specialsGet c x) : f ∈ registeredFids c := by
  unfold specialsGet at h
  cases hl : assocLookup c.pending_specials x with
  | none => rw [hl] at h; simp at h
  | some q =>
      rw [hl] at h
      simp only [Option.getD_some] at h
      refine List.mem_append_right _ ?_
      exact List.mem_flatMap.mpr ⟨(x, q), assocLookup_mem _ _ _ hl, h⟩

theorem resolve_events (c : Conn) (f : Nat) (zx : Option Int) (rep : Reply) :
    ∀ ev ∈ (resolve c f zx rep).events, ev ∈ c.events ∨ ev.1 = f := by
  intro ev hev
  unfold resolve at hev
  by_cases hd : (futureState c f).isDone
  · rw [if_pos hd] at hev
    exact Or.inl hev
  · rw [if_neg hd] at hev
    cases rep with
    | err e =>
        simp [failFuture] at hev
        rcases hev with h | h
        · exact Or.inl h
        · exact Or.inr (by simp [h])
    | ok r =>
        simp [completeFuture] at hev
        rcases hev with h | h
        · exact Or.inl h
        · exact Or.inr (by simp [h])

/-- The read loop resolves only Waiters it pops out of the Pending
Registry: every resolution event a successful dispatch adds carries a
fid that was registered beforehand. -/
theorem dispatch_new_events_are_registered
    (c : Conn) (xid zx : Option Int) (rep : Reply) (c3 : Conn)
    (h : dispatch c xid zx rep = .ok c3) :
    ∀ ev ∈ c3.events, ev ∈ c.events ∨ ev.1 ∈ registeredFids c := by
  intro ev hev
  cases xid with
  | none =>
      cases hl : assocLookup c.pending none with
      | none => simp [dispatch, hl] at h
      | some f =>
          simp [dispatch, hl] at h
          subst h
          rcases resolve_events _ f zx rep ev hev with h' | h'
          · exact Or.inl h'
          · refine Or.inr (h' ▸ List.mem_append_left _ ?_)
            exact List.mem_map.mpr ⟨(none, f), assocLookup_mem _ _ _ hl, rfl⟩
  | some x =>
      by_cases hw : x = WATCH_XID
      · simp [dispatch, hw] at h
        subst h
        exact Or.inl hev
      · by_cases hs : x ∈ SPECIAL_XIDS
        · cases hg : (specialsGet c x).getLast? with
          | none => simp [dispatch, hw, hs, hg] at h
          | some f =>
              simp [dispatch, hw, hs, hg] at h
              subst h
              rcases resolve_events _ f zx rep ev hev with h' | h'
              · exact Or.inl h'
              · exact Or.inr (h' ▸
                  specialsGet_mem_registered c x f (mem_of_getLast _ _ hg))
        · cases hl : assocLookup c.pending (some x) with
          | none => simp [dispatch, hw, hs, hl] at h
          | some f =>
              simp [dispatch, hw, hs, hl] at h
              subst h
              rcases resolve_events _ f zx rep ev hev with h' | h'
              · exact Or.inl h'
              · refine Or.inr (h' ▸ List.mem_append_left _ ?_)
                exact List.mem_map.mpr ⟨(some x, f), assocLookup_mem _ _ _ hl, rfl⟩

/-! ### Send-path characterizations -/

theorem send_ordinary (c : Conn) (req : Request) (x : Int)
    (hcl : c.closing = false) (hs : req.special = none) (hxs : x ∉ SPECIAL_XIDS) :
    send c req (some x) =
      (c.nextFid,
       { c with nextFid := c.nextFid + 1,
                futures := assocUpdate c.futures c.nextFid .pending,
                opcode_xref := assocUpdate c.opcode_xref (some x) req.opcode,
                pending := assocUpdate c.pending (some x) c.nextFid,
                written := c.written ++ [(some x, req.opcode)] }) := by
  simp [send, hcl, hs, isSpecial, hxs]

theorem send_special (c : Conn) (req : Request) (xidArg : Option Int) (x : Int)
    (hcl : c.closing = false) (hs : req.special = some x) (hx : x ∈ SPECIAL_XIDS) :
    send c req xidArg =
      (c.nextFid,
       { c with nextFid := c.nextFid + 1,
                futures := assocUpdate c.futures c.nextFid .pending,
                opcode_xref := assocUpdate c.opcode_xref (some x) req.opcode,
                pending_specials := assocUpdate c.pending_specials x
                  ((specialsGet c x).concat c.nextFid),
                written := c.written ++ [(some x, req.opcode)] }) := by
  simp [send, hcl, hs, isSpecial, hx, specialsSet, specialsGet]

/-! ### Abort lemmas -/

theorem futureState_failFuture_ne (c : Conn) (f : Nat) (e : ZkError) (g : Nat)
    (h : g ≠ f) : futureState (failFuture c f e) g = futureState c g := by
  simp [futureState, failFuture, assocLookup_update_ne _ _ _ _ h]

theorem abort_fold_regs (mk : String → Int → ZkError) (fids : List Nat) :
    ∀ c : Conn,
      let c' := fids.foldl
        (fun acc f => if (futureState acc f).isDone then acc
          else failFuture acc f (mk acc.host acc.port)) c
      c'.pending = c.pending ∧ c'.pending_specials = c.pending_specials
      ∧ c'.host = c.host ∧ c'.port = c.port := by
  induction fids with
  | nil => intro c; exact ⟨rfl, rfl, rfl, rfl⟩
  | cons f rest ih =>
      intro c
      by_cases hd : (futureState c f).isDone
      · simpa [List.foldl_cons, hd] using ih c
      · have h := ih (failFuture c f (mk c.host c.port))
        simpa [List.foldl_cons, hd, failFuture] using h

theorem abort_fold_events (mk : String → Int → ZkError) (fids : List Nat) :
    ∀ c : Conn, fids.Nodup →
      (fids.foldl
        (fun acc f => if (futureState acc f).isDone then acc
          else failFuture acc f (mk acc.host acc.port)) c).events =
      c.events ++
        (fids.filter (fun f => !(futureState c f).isDone)).map
          (fun f => (f, FutureState.failed (mk c.host c.port))) := by
  induction fids with
  | nil => intro c _; simp
  | cons f rest ih =>
      intro c hnd
      rw [List.nodup_cons] at hnd
      by_cases hd : (futureState c f).isDone
      · rw [List.foldl_cons, if_pos hd, ih c hnd.2, List.filter_cons]
        simp [hd]
      · rw [List.foldl_cons, if_neg hd]
        have hcongr : ∀ g ∈ rest,
            (!(futureState (failFuture c f (mk c.host c.port)) g).isDone) =
              (!(futureState c g).isDone) := by
          intro g hg
          rw [futureState_failFuture_ne c f _ g (fun hh => hnd.1 (hh ▸ hg))]
        rw [ih (failFuture c f (mk c.host c.port)) hnd.2,
            List.filter_congr hcongr, List.filter_cons]
        simp [hd, failFuture, List.append_assoc]

theorem drainedFids_of_empty (c : Conn)
    (h1 : c.pending = []) (h2 : c.pending_specials = []) :
    drainedFids c = [] := by
  simp [drainedFids, specialsGet, h1, h2, assocLookup, SPECIAL_XIDS]

theorem clearRegistries_eq_self (c : Conn)
    (h1 : c.pending = []) (h2 : c.pending_specials = []) :
    clearRegistries c = c := by
  cases c
  simp_all [clearRegistries]

/-! ### Claim theorems -/

/-- C3: calling `send` while the connection is Closing/Closed resolves
the returned Waiter with `ConnectError(host, port)` and touches neither
the transport (`written`) nor any registry: no I/O is performed. -/
theorem send_while_closing_yields_connect_error_without_io
    (c : Conn) (req : Request) (xid : Option Int) (h : c.closing = true) :
    futureState (send c req xid).2 (send c req xid).1 =
        .failed (.connectError c.host c.port)
    ∧ (send c req xid).2.written = c.written
    ∧ (send c req xid).2.pending = c.pending
    ∧ (send c req xid).2.pending_specials = c.pending_specials
    ∧ (send c req xid).2.opcode_xref = c.opcode_xref := by
  simp [send, h, futureState, failFuture, assocUpdate_update_same,
    assocLookup_update_self]

/-- Closed witness for the `send`-while-closing theorem. -/
theorem send_while_closing_yields_connect_error_without_io_witness :
    (Conn.mk "zk1" 2181 true [] [] [] none none [] 0 [] [] []).closing = true
    ∧ futureState
        (send (Conn.mk "zk1" 2181 true [] [] [] none none [] 0 [] [] [])
          (Request.mk 1 none []) (some 5)).2
        (send (Conn.mk "zk1" 2181 true [] [] [] none none [] 0 [] [] [])
          (Request.mk 1 none []) (some 5)).1 =
        .failed (.connectError "zk1" 2181)
    ∧ (send (Conn.mk "zk1" 2181 true [] [] [] none none [] 0 [] [] [])
        (Request.mk 1 none []) (some 5)).2.written = [] := by
  refine ⟨rfl, ?_, ?_⟩
  · exact (send_while_closing_yields_connect_error_without_io
      (Conn.mk "zk1" 2181 true [] [] [] none none [] 0 [] [] [])
      (Request.mk 1 none []) (some 5) rfl).1
  · exact (send_while_closing_yields_connect_error_without_io
      (Conn.mk "zk1" 2181 true [] [] [] none none [] 0 [] [] [])
      (Request.mk 1 none []) (some 5) rfl).2.1

/-- C8: for a positive requested byte count, `_read` either returns
exactly that many bytes or fails with `UnfinishedRead`; it never
returns a short read. -/
theorem bounded_read_exact_or_unfinished
    (attempts : List (Option (List Nat))) (size : Int) (h : 0 < size) :
    (∀ bs, zkRead attempts size = .ok bs → (bs.length : Int) = size)
    ∧ (zkRead attempts size = .error .unfinishedRead
        ∨ ∃ bs, zkRead attempts size = .ok bs) := by
  constructor
  · intro bs hbs
    have := readBounded_ok_length attempts size [] bs hbs
    simpa using this
  · cases hres : zkRead attempts size with
    | error e =>
        have he := readBounded_error_is_unfinished attempts size [] e hres
        subst he
        exact Or.inl rfl
    | ok bs => exact Or.inr ⟨bs, rfl⟩

theorem futureState_clearRegistries (c : Conn) (f : Nat) :
    futureState (clearRegistries c) f = futureState c f := rfl

/-- C7: a probe answer whose first line fails the pattern
`Zookeeper version: <major>.<minor>.<patch>-*` makes the handshake fail
(with the raised handshake error — the source's `raise ConnectionError`,
which the spec taxonomy names ProtocolError); a matching first line
stores the three parsed integers in `version_info`, and
`start_read_only` is set iff the substring `READ_ONLY` occurs anywhere
in the answer. -/
theorem handshake_rejects_nonmatching_and_parses_matching
    (c : Conn) (answer : List Char) :
    (make_handshake c answer = .error .connectionError ↔
      ¬ VersionPattern (firstLine answer))
    ∧ (∀ d1 d2 d3 rest : List Char,
        d1 ≠ [] → (∀ ch ∈ d1, ch.isDigit = true) →
        d2 ≠ [] → (∀ ch ∈ d2, ch.isDigit = true) →
        d3 ≠ [] → (∀ ch ∈ d3, ch.isDigit = true) →
        firstLine answer = "Zookeeper version: ".toList ++
          (d1 ++ ('.' :: (d2 ++ ('.' :: (d3 ++ ('-' :: rest)))))) →
        make_handshake c answer =
          .ok { c with
                  version_info :=
                    some (digitsToNat d1, digitsToNat d2, digitsToNat d3),
                  start_read_only := some (readOnlyFlag answer) })
    ∧ (readOnlyFlag answer = true ↔ "READ_ONLY".toList <:+: answer) := by
  refine ⟨?_, ?_, ?_⟩
  · have hmain : make_handshake c answer = .error .connectionError ↔
        parseVersionLine (firstLine answer) = none := by
      unfold make_handshake
      cases parseVersionLine (firstLine answer) with
      | none => simp
      | some v => simp
    refine hmain.trans ⟨?_, ?_⟩
    · intro hn hpat
      obtain ⟨d1, d2, d3, rest, h1, hd1, h2, hd2, h3, hd3, hline⟩ := hpat
      rw [hline, parseVersionLine_of_decomp d1 d2 d3 rest h1 hd1 h2 hd2 h3 hd3]
        at hn
      exact Option.noConfusion hn
    · intro hnp
      cases hp : parseVersionLine (firstLine answer) with
      | none => rfl
      | some v => exact absurd (decomp_of_parseVersionLine _ v hp) hnp
  · intro d1 d2 d3 rest h1 hd1 h2 hd2 h3 hd3 hline
    unfold make_handshake
    rw [hline, parseVersionLine_of_decomp d1 d2 d3 rest h1 hd1 h2 hd2 h3 hd3]
  · simp [readOnlyFlag]

/-- Closed witness for the handshake theorem: the spec's scenario
`Zookeeper version: 3.5.9-abc\nREAD_ONLY` parses to (3,5,9) with the
read-only flag set, while a non-matching probe answer fails. -/
theorem handshake_rejects_nonmatching_and_parses_matching_witness :
    make_handshake (Conn.mk "zk5" 2181 false [] [] [] none none [] 0 [] [] [])
        ("Zookeeper version: 3.5.9-abc\nREAD_ONLY".toList) =
      .ok (Conn.mk "zk5" 2181 false [] [] [] (some (3, 5, 9)) (some true)
        [] 0 [] [] [])
    ∧ make_handshake (Conn.mk "zk5" 2181 false [] [] [] none none [] 0 [] [] [])
        ("bogus".toList) = .error .connectionError := by
  constructor
  · exact (handshake_rejects_nonmatching_and_parses_matching
      (Conn.mk "zk5" 2181 false [] [] [] none none [] 0 [] [] [])
      ("Zookeeper version: 3.5.9-abc\nREAD_ONLY".toList)).2.1
      ['3'] ['5'] ['9'] "abc".toList
      (by decide) (by decide) (by decide) (by decide) (by decide) (by decide)
      (by decide)
  · rfl

/-- C9: sending a second request under an ordinary correlation id that
is already outstanding overwrites the first Waiter's registry entry:
afterwards the id maps to the second (distinct) Waiter, the first
Waiter is unreachable from the Pending Registry, and no read-loop
dispatch of any arriving reply can ever add a resolution event for it. -/
theorem ordinary_resend_overwrites_and_first_waiter_never_resolved
    (c : Conn) (req1 req2 : Request) (x : Int)
    (hcl : c.closing = false)
    (hs1 : req1.special = none) (hs2 : req2.special = none)
    (hxs : x ∉ SPECIAL_XIDS)
    (hfresh : c.nextFid ∉ registeredFids c) :
    assocLookup (send (send c req1 (some x)).2 req2 (some x)).2.pending (some x) =
        some (send (send c req1 (some x)).2 req2 (some x)).1
    ∧ (send (send c req1 (some x)).2 req2 (some x)).1 ≠ (send c req1 (some x)).1
    ∧ (send c req1 (some x)).1 ∉
        registeredFids (send (send c req1 (some x)).2 req2 (some x)).2
    ∧ (∀ (xid zx : Option Int) (rep : Reply) (c3 : Conn),
        dispatch (send (send c req1 (some x)).2 req2 (some x)).2 xid zx rep =
          .ok c3 →
        ∀ ev ∈ c3.events,
          ev ∉ (send (send c req1 (some x)).2 req2 (some x)).2.events →
            ev.1 ≠ (send c req1 (some x)).1) := by
  have h1 := send_ordinary c req1 x hcl hs1 hxs
  have hcl2 : (send c req1 (some x)).2.closing = false := by rw [h1]; exact hcl
  have hs2' : req2.special = none := hs2
  have h2 := send_ordinary (send c req1 (some x)).2 req2 x hcl2 hs2' hxs
  have hpend2 : (send (send c req1 (some x)).2 req2 (some x)).2.pending =
      assocUpdate c.pending (some x) ((send c req1 (some x)).2.nextFid) := by
    rw [h2, h1]
    simp [assocUpdate_update_same]
  have hfid1 : (send c req1 (some x)).1 = c.nextFid := by rw [h1]
  have hfid2 : (send (send c req1 (some x)).2 req2 (some x)).1 = c.nextFid + 1 := by
    rw [h2, h1]
  have hspec2 : (send (send c req1 (some x)).2 req2 (some x)).2.pending_specials =
      c.pending_specials := by
    rw [h2, h1]
  have hnf : (send c req1 (some x)).2.nextFid = c.nextFid + 1 := by rw [h1]
  have hreg : (send c req1 (some x)).1 ∉
      registeredFids (send (send c req1 (some x)).2 req2 (some x)).2 := by
    rw [hfid1]
    intro hmem
    unfold registeredFids at hmem
    rw [hpend2, hspec2, hnf] at hmem
    rcases List.mem_append.mp hmem with hmem | hmem
    · rcases mem_values_update _ _ _ _ hmem with hmem' | hmem'
      · exact hfresh (List.mem_append_left _ hmem')
      · omega
    · exact hfresh (List.mem_append_right _ hmem)
  refine ⟨?_, ?_, hreg, ?_⟩
  · rw [hpend2, hfid2, hnf]
    exact assocLookup_update_self _ _ _
  · rw [hfid1, hfid2]
    omega
  · intro xid zx rep c3 hd ev hev hnew
    rcases dispatch_new_events_are_registered _ xid zx rep c3 hd ev hev with h | h
    · exact absurd h hnew
    · intro heq
      exact hreg (heq ▸ h)

/-- Closed witness for the ordinary-id-reuse theorem. -/
theorem ordinary_resend_overwrites_and_first_waiter_never_resolved_witness :
    assocLookup
        (send (send (Conn.mk "zk3" 2181 false [] [] [] none none [] 0 [] [] [])
            (Request.mk 4 none []) (some 1)).2
          (Request.mk 8 none []) (some 1)).2.pending (some 1) =
      some (send (send (Conn.mk "zk3" 2181 false [] [] [] none none [] 0 [] [] [])
            (Request.mk 4 none []) (some 1)).2
          (Request.mk 8 none []) (some 1)).1
    ∧ (send (send (Conn.mk "zk3" 2181 false [] [] [] none none [] 0 [] [] [])
            (Request.mk 4 none []) (some 1)).2
          (Request.mk 8 none []) (some 1)).1 ≠
        (send (Conn.mk "zk3" 2181 false [] [] [] none none [] 0 [] [] [])
          (Request.mk 4 none []) (some 1)).1
    ∧ (send (Conn.mk "zk3" 2181 false [] [] [] none none [] 0 [] [] [])
          (Request.mk 4 none []) (some 1)).1 ∉
        registeredFids
          (send (send (Conn.mk "zk3" 2181 false [] [] [] none none [] 0 [] [] [])
              (Request.mk 4 none []) (some 1)).2
            (Request.mk 8 none []) (some 1)).2 := by
  have h := ordinary_resend_overwrites_and_first_waiter_never_resolved
    (Conn.mk "zk3" 2181 false [] [] [] none none [] 0 [] [] [])
    (Request.mk 4 none []) (Request.mk 8 none []) 1
    rfl rfl rfl (by decide) (by decide)
  exact ⟨h.1, h.2.1, h.2.2.1⟩

/-- C10: for a reserved id (not the watch id, not the header-less close
id) with two concurrently outstanding requests, the Opcode Ledger keeps
a single entry holding only the second request's opcode; decoding the
first arriving reply consumes (removes) that entry, so decoding the
second reply finds no ledger entry and raises (`KeyError` from
`opcode_xref.pop`). -/
theorem reserved_id_opcode_ledger_single_entry_consumed_once
    (c : Conn) (req1 req2 : Request) (x z z2 : Int)
    (b1 b2 body rest b3 b4 body' rest' : List Nat)
    (hx : x ∈ SPECIAL_XIDS) (hxw : x ≠ WATCH_XID) (hxc : x ≠ CLOSE_XID)
    (hcl : c.closing = false)
    (hs1 : req1.special = some x) (hs2 : req2.special = some x)
    (hclose : specialsGet c CLOSE_XID = [])
    (hnd : (c.opcode_xref.map Prod.fst).Nodup)
    (hb1 : b1.length = 4) (hb2 : b2.length = 16)
    (hsize : decodeIntBE b1 = 16 + body.length)
    (hhdr : decodeHeader b2 = (x, z, 0))
    (hb3 : b3.length = 4) (hb4 : b4.length = 16)
    (hsize' : decodeIntBE b3 = 16 + body'.length)
    (hhdr' : decodeHeader b4 = (x, z2, 0)) :
    assocLookup (send (send c req1 none).2 req2 none).2.opcode_xref (some x) =
        some req2.opcode
    ∧ (send (send c req1 none).2 req2 none).2.opcode_xref.countP
        (fun p => p.1 = some x) = 1
    ∧ read_response (send (send c req1 none).2 req2 none).2
        (b1 ++ (b2 ++ (body ++ rest))) false =
      .ok ((some x, some z, .ok (.decoded req2.opcode body)),
        { (send (send c req1 none).2 req2 none).2 with
            opcode_xref := assocRemove
              (send (send c req1 none).2 req2 none).2.opcode_xref (some x) },
        rest)
    ∧ assocLookup
        (assocRemove (send (send c req1 none).2 req2 none).2.opcode_xref (some x))
        (some x) = none
    ∧ read_response
        { (send (send c req1 none).2 req2 none).2 with
            opcode_xref := assocRemove
              (send (send c req1 none).2 req2 none).2.opcode_xref (some x) }
        (b3 ++ (b4 ++ (body' ++ rest'))) false =
      .error (.keyError (some x)) := by
  have h1 := send_special c req1 none x hcl hs1 hx
  have hcl2 : (send c req1 none).2.closing = false := by rw [h1]; exact hcl
  have h2 := send_special (send c req1 none).2 req2 none x hcl2 hs2 hx
  have hop2 : (send (send c req1 none).2 req2 none).2.opcode_xref =
      assocUpdate c.opcode_xref (some x) req2.opcode := by
    rw [h2, h1]
    simp [assocUpdate_update_same]
  have hclose2 : specialsGet (send (send c req1 none).2 req2 none).2 CLOSE_XID
      = [] := by
    unfold specialsGet
    rw [h2, h1]
    simp only [assocUpdate_update_same]
    rw [assocLookup_update_ne _ _ _ _ (Ne.symm hxc)]
    exact hclose
  have hlook : assocLookup (send (send c req1 none).2 req2 none).2.opcode_xref
      (some x) = some req2.opcode := by
    rw [hop2]
    exact assocLookup_update_self _ _ _
  have hnd2 : ((send (send c req1 none).2 req2 none).2.opcode_xref.map
      Prod.fst).Nodup := by
    rw [hop2]
    exact nodup_keys_update _ _ _ hnd
  have hgone : assocLookup
      (assocRemove (send (send c req1 none).2 req2 none).2.opcode_xref (some x))
      (some x) = none := assocLookup_remove_self _ _ hnd2
  refine ⟨hlook, ?_, ?_, hgone, ?_⟩
  · rw [hop2]
    exact countP_keys_update_self _ _ _ hnd
  · exact read_response_frame_decoded _ b1 b2 body rest x z req2.opcode
      hb1 hb2 hsize hhdr hclose2 hxw hlook
  · exact read_response_frame_no_opcode _ b3 b4 body' rest' x z2
      hb3 hb4 hsize' hhdr' hclose2 hxw hgone

/-- Closed witness for the reserved-id opcode-ledger theorem:
two outstanding ping requests (opcodes 11 then 12), first ping reply
decodes with opcode 12 and consumes the single entry, second reply
raises `KeyError`. -/
theorem reserved_id_opcode_ledger_single_entry_consumed_once_witness :
    assocLookup
        (send (send (Conn.mk "zk4" 2181 false [] [] [] none none [] 0 [] [] [])
            (Request.mk 11 (some (-2)) []) none).2
          (Request.mk 12 (some (-2)) []) none).2.opcode_xref (some (-2)) =
      some 12
    ∧ read_response
        { (send (send (Conn.mk "zk4" 2181 false [] [] [] none none [] 0 [] [] [])
              (Request.mk 11 (some (-2)) []) none).2
            (Request.mk 12 (some (-2)) []) none).2 with
            opcode_xref := assocRemove
              (send (send (Conn.mk "zk4" 2181 false [] [] [] none none [] 0 [] [] [])
                  (Request.mk 11 (some (-2)) []) none).2
                (Request.mk 12 (some (-2)) []) none).2.opcode_xref (some (-2)) }
        ([0, 0, 0, 16] ++
          ([255, 255, 255, 254, 0, 0, 0, 0, 0, 0, 0, 0, 0, 0, 0, 0] ++
            ([] ++ []))) false =
      .error (.keyError (some (-2))) := by
  have h := reserved_id_opcode_ledger_single_entry_consumed_once
    (Conn.mk "zk4" 2181 false [] [] [] none none [] 0 [] [] [])
    (Request.mk 11 (some (-2)) []) (Request.mk 12 (some (-2)) []) (-2) 0 0
    [0, 0, 0, 16] [255, 255, 255, 254, 0, 0, 0, 0, 0, 0, 0, 0, 0, 0, 0, 0] [] []
    [0, 0, 0, 16] [255, 255, 255, 254, 0, 0, 0, 0, 0, 0, 0, 0, 0, 0, 0, 0] [] []
    (by decide) (by decide) (by decide) rfl rfl rfl (by decide) (by decide)
    (by decide) (by decide) (by decide) (by decide)
    (by decide) (by decide) (by decide) (by decide)
  exact ⟨h.1, h.2.2.2.2⟩

/-- C1 counterexample: with two outstanding ping requests (waiter 0
enqueued before waiter 1 on the reserved ping id), the next ping reply
resolves waiter 1 — `pending_specials[xid].pop()` takes the newest
entry — while the oldest waiter 0 stays pending, so reserved-id matching
is not FIFO. -/
theorem reserved_reply_resolves_newest_not_oldest_counterexample :
    readLoopIter
        (Conn.mk "zk1" 2181 false [(some (-2), 11)] [] [(-2, [0, 1])] none none
          [(0, .pending), (1, .pending)] 2 [] [] [])
        [0, 0, 0, 16, 255, 255, 255, 254, 0, 0, 0, 0, 0, 0, 0, 0, 0, 0, 0, 0] =
      .cont
        (Conn.mk "zk1" 2181 false [] [] [(-2, [0])] none none
          [(0, .pending), (1, .result (some 0) (.decoded 11 []))] 2
          [(1, FutureState.result (some 0) (.decoded 11 []))] [] [])
        [] := by
  decide

/-- C1 amended: reserved-id matching is LIFO, not FIFO — `send` appends
the new Waiter at the tail of the reserved id's queue, and the read
loop's dispatch pops the tail, so the next reply carrying that id
resolves the most recently enqueued outstanding Waiter. -/
theorem reserved_id_replies_match_lifo
    (c : Conn) (req : Request) (x : Int) (zx : Option Int) (rep : Reply)
    (q : List Nat) (f : Nat)
    (hx : x ∈ SPECIAL_XIDS) (hxw : x ≠ WATCH_XID) :
    (c.closing = false → req.special = some x →
      specialsGet (send c req none).2 x = specialsGet c x ++ [c.nextFid])
    ∧ (specialsGet c x = q ++ [f] →
      dispatch c (some x) zx rep = .ok (resolve (specialsSet c x q) f zx rep)) := by
  constructor
  · intro hcl hsp
    simp only [send, hcl, hsp, Bool.false_eq_true, if_false, isSpecial, hx,
      decide_eq_true_eq, if_true, decide_True]
    simp [specialsGet, specialsSet, assocLookup_update_self, List.concat_eq_append]
  · intro hq
    simp [dispatch, hxw, hx, hq, List.getLast?_concat, List.dropLast_concat]

/-- Closed witness for the LIFO matching theorem. -/
theorem reserved_id_replies_match_lifo_witness :
    specialsGet
        (send
          (Conn.mk "zk1" 2181 false [] [] [(-2, [0, 1])] none none
            [(0, .pending), (1, .pending)] 2 [] [] [])
          (Request.mk 11 (some (-2)) []) none).2 (-2) = [0, 1, 2]
    ∧ dispatch
        (Conn.mk "zk1" 2181 false [] [] [(-2, [0, 1])] none none
          [(0, .pending), (1, .pending)] 2 [] [] [])
        (some (-2)) (some 0) (.ok (.decoded 11 [])) =
      .ok (resolve
        (specialsSet
          (Conn.mk "zk1" 2181 false [] [] [(-2, [0, 1])] none none
            [(0, .pending), (1, .pending)] 2 [] [] [])
          (-2) [0])
        1 (some 0) (.ok (.decoded 11 []))) := by
  have h := reserved_id_replies_match_lifo
    (Conn.mk "zk1" 2181 false [] [] [(-2, [0, 1])] none none
      [(0, .pending), (1, .pending)] 2 [] [] [])
    (Request.mk 11 (some (-2)) []) (-2) (some 0) (.ok (.decoded 11 []))
    [0] 1 (by decide) (by decide)
  exact ⟨h.1 rfl rfl, h.2 (by decide)⟩

/-- C2 counterexample: an ordinary reply whose correlation id has no
registered Waiter (here: the registry is empty, as after an abort) is
not silently discarded — `self.pending.pop(xid)` raises `KeyError`,
which the read loop does not catch, so the loop crashes instead of
continuing. -/
theorem missing_waiter_reply_crashes_loop_counterexample :
    readLoopIter
        (Conn.mk "zk1" 2181 false [(some 5, 3)] [] [] none none [] 0 [] [] [])
        [0, 0, 0, 16, 0, 0, 0, 5, 0, 0, 0, 0, 0, 0, 0, 0, 0, 0, 0, 0] =
      .crashed (.keyError (some 5))
        (Conn.mk "zk1" 2181 false [] [] [] none none [] 0 [] [] []) := by
  decide

/-- C2 amended: a reply for an id with no registered Waiter raises an
uncaught lookup error that terminates the read-loop task (`KeyError`
from `pending.pop(xid)` for ordinary ids, `IndexError` from
`pending_specials[xid].pop()` for reserved ids); only a Waiter that is
still registered but already done/cancelled makes the loop discard the
response and continue. -/
theorem unregistered_reply_raises_lookup_error_done_waiter_discarded
    (c : Conn) (b1 b2 body rest : List Nat) (x z : Int) (op f : Nat)
    (hb1 : b1.length = 4) (hb2 : b2.length = 16)
    (hsize : decodeIntBE b1 = 16 + body.length)
    (hhdr : decodeHeader b2 = (x, z, 0))
    (hclose : specialsGet c CLOSE_XID = [])
    (hxw : x ≠ WATCH_XID)
    (hop : assocLookup c.opcode_xref (some x) = some op) :
    (x ∉ SPECIAL_XIDS → assocLookup c.pending (some x) = none →
      readLoopIter c (b1 ++ (b2 ++ (body ++ rest))) =
        .crashed (.keyError (some x))
          { c with opcode_xref := assocRemove c.opcode_xref (some x) })
    ∧ (x ∈ SPECIAL_XIDS → specialsGet c x = [] →
      readLoopIter c (b1 ++ (b2 ++ (body ++ rest))) =
        .crashed .indexError
          { c with opcode_xref := assocRemove c.opcode_xref (some x) })
    ∧ (x ∉ SPECIAL_XIDS → assocLookup c.pending (some x) = some f →
        (futureState c f).isDone = true →
      readLoopIter c (b1 ++ (b2 ++ (body ++ rest))) =
        .cont
          { c with opcode_xref := assocRemove c.opcode_xref (some x),
                   pending := assocRemove c.pending (some x) }
          rest) := by
  have hrr := read_response_frame_decoded c b1 b2 body rest x z op hb1 hb2 hsize
    hhdr hclose hxw hop
  refine ⟨?_, ?_, ?_⟩
  · intro hxs hpn
    simp only [readLoopIter, hrr]
    simp [dispatch, hxw, hxs, hpn]
  · intro hxs hq
    simp only [readLoopIter, hrr]
    have hq' : specialsGet { c with opcode_xref := assocRemove c.opcode_xref (some x) } x
        = [] := hq
    simp [dispatch, hxw, hxs, hq']
  · intro hxs hpf hdone
    simp only [readLoopIter, hrr]
    simp [dispatch, hxw, hxs, hpf, resolve]
    have hfs : futureState
        { c with opcode_xref := assocRemove c.opcode_xref (some x),
                 pending := assocRemove c.pending (some x) } f =
        futureState c f := rfl
    simp [hfs, hdone]

/-- Closed witness for the amended unregistered-reply theorem: an
ordinary id with an empty map crashes with KeyError, a reserved id with
an empty queue crashes with IndexError, and a registered-but-cancelled
Waiter is skipped while the loop continues. -/
theorem unregistered_reply_raises_lookup_error_done_waiter_discarded_witness :
    readLoopIter
        (Conn.mk "zk2" 2181 false [(some 6, 4)] [] [] none none [] 0 [] [] [])
        [0, 0, 0, 16, 0, 0, 0, 6, 0, 0, 0, 0, 0, 0, 0, 0, 0, 0, 0, 0] =
      .crashed (.keyError (some 6))
        (Conn.mk "zk2" 2181 false [] [] [] none none [] 0 [] [] [])
    ∧ readLoopIter
        (Conn.mk "zk2" 2181 false [(some (-2), 11)] [] [] none none [] 0 [] [] [])
        [0, 0, 0, 16, 255, 255, 255, 254, 0, 0, 0, 0, 0, 0, 0, 0, 0, 0, 0, 0] =
      .crashed .indexError
        (Conn.mk "zk2" 2181 false [] [] [] none none [] 0 [] [] [])
    ∧ readLoopIter
        (Conn.mk "zk2" 2181 false [(some 6, 4)] [(some 6, 0)] [] none none
          [(0, .cancelled)] 1 [] [] [])
        [0, 0, 0, 16, 0, 0, 0, 6, 0, 0, 0, 0, 0, 0, 0, 0, 0, 0, 0, 0] =
      .cont
        (Conn.mk "zk2" 2181 false [] [] [] none none [(0, .cancelled)] 1 [] [] [])
        [] := by
  refine ⟨?_, ?_, ?_⟩
  · exact (unregistered_reply_raises_lookup_error_done_waiter_discarded
      (Conn.mk "zk2" 2181 false [(some 6, 4)] [] [] none none [] 0 [] [] [])
      [0, 0, 0, 16] [0, 0, 0, 6, 0, 0, 0, 0, 0, 0, 0, 0, 0, 0, 0, 0] [] []
      6 0 4 0 (by decide) (by decide) (by decide) (by decide) (by decide)
      (by decide) (by decide)).1 (by decide) (by decide)
  · exact (unregistered_reply_raises_lookup_error_done_waiter_discarded
      (Conn.mk "zk2" 2181 false [(some (-2), 11)] [] [] none none [] 0 [] [] [])
      [0, 0, 0, 16] [255, 255, 255, 254, 0, 0, 0, 0, 0, 0, 0, 0, 0, 0, 0, 0] [] []
      (-2) 0 11 0 (by decide) (by decide) (by decide) (by decide) (by decide)
      (by decide) (by decide)).2.1 (by decide) (by decide)
  · exact (unregistered_reply_raises_lookup_error_done_waiter_discarded
      (Conn.mk "zk2" 2181 false [(some 6, 4)] [(some 6, 0)] [] none none
        [(0, .cancelled)] 1 [] [] [])
      [0, 0, 0, 16] [0, 0, 0, 6, 0, 0, 0, 0, 0, 0, 0, 0, 0, 0, 0, 0] [] []
      6 0 4 0 (by decide) (by decide) (by decide) (by decide) (by decide)
      (by decide) (by decide)).2.2 (by decide) (by decide) (by decide)

/-- C4: `abort` fails every Waiter drained out of the ordinary map and
the reserved-id queues exactly once (each such fid gets exactly one new
resolution event), skips Waiters that are already done or cancelled
(zero new events), and is idempotent — a second `abort` finds the
registries drained and changes nothing, so no Waiter is ever resolved
twice. -/
theorem abort_resolves_each_enqueued_waiter_once_and_is_idempotent
    (c : Conn) (hnd : (drainedFids c).Nodup) :
    (∀ f, f ∈ drainedFids c → (futureState c f).isDone = false →
        (((abort c ZkError.connectError).events.drop c.events.length).map
          Prod.fst).count f = 1)
    ∧ (∀ f, (futureState c f).isDone = true →
        (((abort c ZkError.connectError).events.drop c.events.length).map
          Prod.fst).count f = 0)
    ∧ abort (abort c ZkError.connectError) ZkError.connectError =
        abort c ZkError.connectError := by
  have hev : (abort c ZkError.connectError).events =
      c.events ++
        ((drainedFids c).filter (fun f => !(futureState c f).isDone)).map
          (fun f => (f, FutureState.failed (.connectError c.host c.port))) := by
    have h := abort_fold_events ZkError.connectError (drainedFids c)
      (clearRegistries c) hnd
    simpa [abort, futureState_clearRegistries, clearRegistries] using h
  have hdropmap :
      ((abort c ZkError.connectError).events.drop c.events.length).map Prod.fst =
        (drainedFids c).filter (fun f => !(futureState c f).isDone) := by
    rw [hev, List.drop_left]
    simp [List.map_map, Function.comp_def]
  refine ⟨?_, ?_, ?_⟩
  · intro f hmem hpend
    rw [hdropmap]
    exact List.count_eq_one_of_mem (hnd.filter _)
      (List.mem_filter.mpr ⟨hmem, by simp [hpend]⟩)
  · intro f hdone
    rw [hdropmap]
    refine List.count_eq_zero_of_not_mem (fun hmem => ?_)
    have := (List.mem_filter.mp hmem).2
    simp [hdone] at this
  · have hregs := abort_fold_regs ZkError.connectError (drainedFids c)
      (clearRegistries c)
    have hp : (abort c ZkError.connectError).pending = [] := by
      simpa [abort, clearRegistries] using hregs.1
    have hs : (abort c ZkError.connectError).pending_specials = [] := by
      simpa [abort, clearRegistries] using hregs.2.1
    rw [abort, drainedFids_of_empty _ hp hs,
        clearRegistries_eq_self _ hp hs, List.foldl_nil]

/-- Closed witness for the abort theorem: future 2 is pending in the
ordinary map, futures 0 and 1 sit in a reserved queue with 1 already
resolved; abort fails 0 and 2 exactly once, skips 1, and a second abort
is a no-op. -/
theorem abort_resolves_each_enqueued_waiter_once_and_is_idempotent_witness :
    (drainedFids
        (Conn.mk "zk1" 2181 false [] [(some 7, 2)] [(-2, [0, 1])] none none
          [(0, .pending), (1, .result none (.connectResponse [])), (2, .pending)]
          3 [] [] [])).Nodup
    ∧ (((abort
          (Conn.mk "zk1" 2181 false [] [(some 7, 2)] [(-2, [0, 1])] none none
            [(0, .pending), (1, .result none (.connectResponse [])), (2, .pending)]
            3 [] [] []) ZkError.connectError).events.drop 0).map Prod.fst).count 0 = 1
    ∧ (((abort
          (Conn.mk "zk1" 2181 false [] [(some 7, 2)] [(-2, [0, 1])] none none
            [(0, .pending), (1, .result none (.connectResponse [])), (2, .pending)]
            3 [] [] []) ZkError.connectError).events.drop 0).map Prod.fst).count 1 = 0
    ∧ abort (abort
          (Conn.mk "zk1" 2181 false [] [(some 7, 2)] [(-2, [0, 1])] none none
            [(0, .pending), (1, .result none (.connectResponse [])), (2, .pending)]
            3 [] [] []) ZkError.connectError) ZkError.connectError =
        abort
          (Conn.mk "zk1" 2181 false [] [(some 7, 2)] [(-2, [0, 1])] none none
            [(0, .pending), (1, .result none (.connectResponse [])), (2, .pending)]
            3 [] [] []) ZkError.connectError := by
  have h := abort_resolves_each_enqueued_waiter_once_and_is_idempotent
    (Conn.mk "zk1" 2181 false [] [(some 7, 2)] [(-2, [0, 1])] none none
      [(0, .pending), (1, .result none (.connectResponse [])), (2, .pending)]
      3 [] [] []) (by decide)
  exact ⟨by decide, h.1 0 (by decide) (by decide), h.2.1 1 (by decide), h.2.2⟩

/-- C5: a reply header with nonzero `error_code` removes the Opcode
Ledger entry for its id, reads no body bytes (the loop continues at
`tail`, right after the 16-byte header, whatever the declared frame size
said), decodes nothing, and fails the matching Waiter with the mapped
error kind `get_response_error(error_code)`. -/
theorem error_reply_skips_body_and_fails_waiter
    (c : Conn) (b1 b2 tail : List Nat) (x z ec : Int) (op f : Nat)
    (hb1 : b1.length = 4) (hb2 : b2.length = 16)
    (hhdr : decodeHeader b2 = (x, z, ec)) (hec : ec ≠ 0)
    (hclose : specialsGet c CLOSE_XID = [])
    (hxs : x ∉ SPECIAL_XIDS)
    (hop : assocLookup c.opcode_xref (some x) = some op)
    (hreg : assocLookup c.pending (some x) = some f)
    (hpend : futureState c f = .pending) :
    readLoopIter c (b1 ++ (b2 ++ tail)) =
      .cont
        { c with
            opcode_xref := assocRemove c.opcode_xref (some x),
            pending := assocRemove c.pending (some x),
            futures := assocUpdate c.futures f (.failed (.responseError ec)),
            events := c.events ++ [(f, FutureState.failed (.responseError ec))] }
        tail := by
  have hxw : x ≠ WATCH_XID := fun hh => hxs (by rw [hh]; decide)
  have hrr := read_response_frame_error_code c b1 b2 tail x z ec op hb1 hb2 hhdr hec
    hclose hop
  simp only [readLoopIter, hrr]
  simp only [dispatch, if_neg hxw]
  rw [if_neg (by simpa using hxs)]
  simp only [hreg]
  simp [resolve, futureState, failFuture] at hpend ⊢
  simp [hpend, FutureState.isDone]

/-- Closed witness for the nonzero-error-code theorem. -/
theorem error_reply_skips_body_and_fails_waiter_witness :
    readLoopIter
        (Conn.mk "zk1" 2181 false [(some 5, 3)] [(some 5, 0)] [] none none
          [(0, .pending)] 1 [] [] [])
        ([0, 0, 0, 16] ++
          ([0, 0, 0, 5, 0, 0, 0, 0, 0, 0, 0, 0, 0, 0, 0, 1] ++ [9, 9])) =
      .cont
        (Conn.mk "zk1" 2181 false [] [] [] none none
          [(0, .failed (.responseError 1))] 1
          [(0, FutureState.failed (.responseError 1))] [] [])
        [9, 9] := by
  exact error_reply_skips_body_and_fails_waiter
    (Conn.mk "zk1" 2181 false [(some 5, 3)] [(some 5, 0)] [] none none
      [(0, .pending)] 1 [] [] [])
    [0, 0, 0, 16] [0, 0, 0, 5, 0, 0, 0, 0, 0, 0, 0, 0, 0, 0, 0, 1] [9, 9]
    5 0 1 3 0 (by decide) (by decide) (by decide) (by decide) (by decide)
    (by decide) (by decide) (by decide) (by decide)

/-- C6: a frame carrying the reserved watch id is handed to the watch
handler as a decoded `WatchEvent` and the loop continues; no Waiter is
popped and the Pending Registry (ordinary map, reserved queues), the
Opcode Ledger, the future heap and the resolution log are all left
unchanged. -/
theorem watch_frame_invokes_handler_and_leaves_registry_unchanged
    (c : Conn) (b1 b2 body rest : List Nat) (z : Int)
    (hb1 : b1.length = 4) (hb2 : b2.length = 16)
    (hsize : decodeIntBE b1 = 16 + body.length)
    (hhdr : decodeHeader b2 = (WATCH_XID, z, 0))
    (hclose : specialsGet c CLOSE_XID = []) :
    readLoopIter c (b1 ++ (b2 ++ (body ++ rest))) =
      .cont { c with watchLog := c.watchLog ++ [.ok (.watchEvent body)] } rest := by
  have hrr := read_response_frame_watch c b1 b2 body rest z hb1 hb2 hsize hhdr hclose
  simp [readLoopIter, hrr, dispatch]

/-- Closed witness for the watch-frame theorem. -/
theorem watch_frame_invokes_handler_and_leaves_registry_unchanged_witness :
    readLoopIter
        (Conn.mk "zk1" 2181 false [(some 5, 3)] [(some 5, 0)] [(-2, [1])] none none
          [(0, .pending), (1, .pending)] 2 [] [] [])
        ([0, 0, 0, 18] ++
          ([255, 255, 255, 255, 0, 0, 0, 0, 0, 0, 0, 0, 0, 0, 0, 0] ++
            ([7, 8] ++ []))) =
      .cont
        (Conn.mk "zk1" 2181 false [(some 5, 3)] [(some 5, 0)] [(-2, [1])] none none
          [(0, .pending), (1, .pending)] 2 [] []
          [.ok (.watchEvent [7, 8])])
        [] := by
  exact watch_frame_invokes_handler_and_leaves_registry_unchanged
    (Conn.mk "zk1" 2181 false [(some 5, 3)] [(some 5, 0)] [(-2, [1])] none none
      [(0, .pending), (1, .pending)] 2 [] [] [])
    [0, 0, 0, 18] [255, 255, 255, 255, 0, 0, 0, 0, 0, 0, 0, 0, 0, 0, 0, 0]
    [7, 8] [] 0 (by decide) (by decide) (by decide) (by decide) (by decide)

/-- Closed witness for the bounded-read theorem. -/
theorem bounded_read_exact_or_unfinished_witness :
    (0 : Int) < 3
    ∧ (∀ bs, zkRead [some [1, 2], none, some [3]] 3 = .ok bs →
        (bs.length : Int) = 3)
    ∧ (zkRead [some [1, 2], none, some [3]] 3 = .error .unfinishedRead
        ∨ ∃ bs, zkRead [some [1, 2], none, some [3]] 3 = .ok bs) := by
  refine ⟨by decide, ?_⟩
  exact bounded_read_exact_or_unfinished [some [1, 2], none, some [3]] 3 (by decide)

end Aiozk

